import Mathlib

/-!
Shallow embedding of `src/backend/check.py`: a script that reads the
newline-delimited JSON diagnostics log `check.json`, filters compiler
messages at error or warning level that carry at least one source span,
renders each as a Markdown block, and writes either the aggregated
report or a fixed success document to `check.md`.

Modelling choices:

* Each input line is an `Option JValue`: `none` stands for a line on
  which `json.loads` raises (covered by the scripts bare
  `except: continue`), `some v` for a line that decodes to the JSON
  value `v`.  Only the decode step is inside the `try` block in the
  source, so every later dynamic failure is an uncaught exception.
* JSON numbers are modelled as integers (the script only ever renders
  them; the fields involved are line numbers).  Decoded objects are
  association lists with the keys produced by the JSON decoder (which
  collapses duplicate keys, so lookups are unambiguous).
* Uncaught interpreter exceptions (`AttributeError` from `.get`,
  `.title` or `.rstrip` on a non-object or non-string value,
  `TypeError` and `KeyError` and `IndexError` from subscripting) are
  modelled by `Except PyError`.  When the fold over the lines returns
  `Except.error`, the process dies before writing any output.
-/

namespace CargoCheck

/-- A decoded JSON value as manipulated by the script. -/
inductive JValue : Type where
  | null : JValue
  | bool : Bool → JValue
  | num : Int → JValue
  | str : String → JValue
  | arr : List JValue → JValue
  | obj : List (String × JValue) → JValue

/-- The uncaught interpreter exceptions reachable by the script after a
line has been decoded (the decode itself is guarded by `try`). -/
inductive PyError : Type where
  | attributeError : PyError
  | typeError : PyError
  | keyError : PyError
  | indexError : PyError
deriving DecidableEq

instance {ε α : Type} [DecidableEq ε] [DecidableEq α] : DecidableEq (Except ε α) := by
  intro a b
  cases a with
  | error e =>
    cases b with
    | error f =>
      exact if h : e = f then .isTrue (by rw [h]) else .isFalse (by intro c; cases c; exact h rfl)
    | ok b => exact .isFalse (by intro c; cases c)
  | ok a =>
    cases b with
    | error f => exact .isFalse (by intro c; cases c)
    | ok b =>
      exact if h : a = b then .isTrue (by rw [h]) else .isFalse (by intro c; cases c; exact h rfl)

/-- Field lookup in a decoded JSON object (the dictionary produced by
`json.loads`; keys are unique there, so first match is the match). -/
def jLookup : List (String × JValue) → String → Option JValue
  | [], _ => none
  | (k, v) :: fs, key => if k == key then some v else jLookup fs key

/-- Pythons `v.get(key, dflt)`: dictionary lookup with a default, an
uncaught `AttributeError` when `v` is not a dictionary. -/
def pyGet (v : JValue) (key : String) (dflt : JValue) : Except PyError JValue :=
  match v with
  | .obj fs => .ok ((jLookup fs key).getD dflt)
  | _ => .error .attributeError

/-- Pythons `v == s` for a string literal `s`: true exactly when `v` is
that string (no JSON value of another shape compares equal to it). -/
def isStrEq (v : JValue) (s : String) : Bool :=
  match v with
  | .str t => t == s
  | _ => false

/-- Python truthiness of a decoded JSON value, as used by
`if not spans: continue`. -/
def pyFalsy : JValue → Bool
  | .null => true
  | .bool b => !b
  | .num n => n == 0
  | .str s => s.data.isEmpty
  | .arr xs => xs.isEmpty
  | .obj fs => fs.isEmpty

/-- Pythons `v[0]`: first element of a list, first character of a
string, `KeyError` on a dictionary (JSON keys are strings, never `0`),
`TypeError` on anything unsubscriptable. -/
def pySubscript0 : JValue → Except PyError JValue
  | .arr [] => .error .indexError
  | .arr (x :: _) => .ok x
  | .str s =>
    match s.data with
    | [] => .error .indexError
    | c :: _ => .ok (.str (String.mk [c]))
  | .obj _ => .error .keyError
  | _ => .error .typeError

/-- The whitespace characters removed by Pythons `str.rstrip()` (the
ASCII ones; the diagnostics the script renders are ASCII text). -/
def isPySpace (c : Char) : Bool :=
  (c == ' ') || (c == Char.ofNat 9) || (c == Char.ofNat 10) || (c == Char.ofNat 13) ||
    (c == Char.ofNat 11) || (c == Char.ofNat 12)

/-- Pythons `s.rstrip()` on a string: drop trailing whitespace. -/
def pyRstripStr (s : String) : String :=
  String.mk ((s.data.reverse.dropWhile isPySpace).reverse)

/-- Pythons `v.rstrip()` on a JSON value: `AttributeError` unless `v`
is a string. -/
def pyRstrip : JValue → Except PyError String
  | .str s => .ok (pyRstripStr s)
  | _ => .error .attributeError

/-- Character stream of Pythons `str.title()`: a letter is uppercased
when the previous character is not a letter, lowercased otherwise. -/
def pyTitleAux : Bool → List Char → List Char
  | _, [] => []
  | prev, c :: cs =>
    (if c.isAlpha then (if prev then c.toLower else c.toUpper) else c) :: pyTitleAux c.isAlpha cs

/-- Pythons `s.title()` on a string. -/
def pyTitle (s : String) : String :=
  String.mk (pyTitleAux false s.data)

/-- Pythons `v.title()` on a JSON value: `AttributeError` unless `v`
is a string. -/
def pyTitleV : JValue → Except PyError String
  | .str s => .ok (pyTitle s)
  | _ => .error .attributeError

/-- The single-quote character, used by Pythons `repr` of strings. -/
def squote : String := String.mk [Char.ofNat 39]

mutual
/-- Pythons `repr` of a decoded JSON value, the representation used for
elements nested inside rendered containers.  (Escaping of quote
characters inside a represented string is not modelled; no quoted
rendering arises for the fields the script formats on wellformed
diagnostics.) -/
def pyRepr : JValue → String
  | .null => "None"
  | .bool true => "True"
  | .bool false => "False"
  | .num n => toString n
  | .str s => squote ++ s ++ squote
  | .arr xs => "[" ++ pyReprList xs ++ "]"
  | .obj fs => "\x7b" ++ pyReprFields fs ++ "\x7d"

/-- `repr` of list elements, comma separated. -/
def pyReprList : List JValue → String
  | [] => ""
  | [x] => pyRepr x
  | x :: y :: xs => pyRepr x ++ ", " ++ pyReprList (y :: xs)

/-- `repr` of dictionary entries, comma separated. -/
def pyReprFields : List (String × JValue) → String
  | [] => ""
  | [(k, v)] => squote ++ k ++ squote ++ ": " ++ pyRepr v
  | (k, v) :: p :: fs => squote ++ k ++ squote ++ ": " ++ pyRepr v ++ ", " ++ pyReprFields (p :: fs)
end

/-- Pythons `str()` of a decoded JSON value, as interpolated by the
f-strings of the script: a string interpolates as itself, `None` as
`None`, numbers in decimal, containers by their `repr`. -/
def pyStr : JValue → String
  | .str s => s
  | v => pyRepr v

/-- One iteration of the per-line loop of `check.py`: the strings the
line appends to `out` (`[]` when the line is skipped by a `continue`),
or the uncaught exception the iteration raises.  `none` is a line on
which `json.loads` raised; that is the `except: continue` path. -/
def processLine : Option JValue → Except PyError (List String)
  | none => .ok []
  | some obj => do
    let reason ← pyGet obj "reason" JValue.null
    if isStrEq reason "compiler-message" = false then return []
    let msg ← pyGet obj "message" (JValue.obj [])
    let level ← pyGet msg "level" JValue.null
    if (isStrEq level "error" || isStrEq level "warning") = false then return []
    let spans ← pyGet msg "spans" (JValue.arr [])
    if pyFalsy spans then return []
    let span ← pySubscript0 spans
    let levelT ← pyTitleV level
    let mtext ← pyGet msg "message" (JValue.str "")
    let fileName ← pyGet span "file_name" JValue.null
    let lineStart ← pyGet span "line_start" JValue.null
    let rendered ← pyGet msg "rendered" (JValue.str "")
    let renderedR ← pyRstrip rendered
    return ["### " ++ levelT ++ ": " ++ pyStr mtext,
            "File: " ++ pyStr fileName ++ ":" ++ pyStr lineStart,
            "```rust",
            renderedR,
            "```\n"]

/-- The two mutable globals of the script. -/
structure LoopState : Type where
  out : List String
  has_messages : Bool
deriving DecidableEq

/-- The effect of one loop iteration on the globals: a skipped line
leaves them unchanged, a qualifying line appends its block to `out`
and sets `has_messages`. -/
def stepLine (st : LoopState) (line : Option JValue) : Except PyError LoopState := do
  let b ← processLine line
  if b.isEmpty then
    pure st
  else
    pure { out := st.out ++ b, has_messages := true }

/-- The loop over all input lines. -/
def runLoop (st : LoopState) : List (Option JValue) → Except PyError LoopState
  | [] => .ok st
  | l :: ls => do
    let st2 ← stepLine st l
    runLoop st2 ls

/-- Pythons `"\n".join(out)`. -/
def joinLines : List String → String
  | [] => ""
  | [x] => x
  | x :: y :: xs => x ++ "\n" ++ joinLines (y :: xs)

/-- The fixed success document written when no qualifying message was
seen. -/
def successDoc : String := "# Cargo Check Report\n\nNo warnings or errors. Build success.\n"

/-- The heading plus blank line that opens the report-shape document. -/
def reportHeader : String := "# Cargo Check Report\n\n"

/-- The whole program on the decoded input lines: the text written to
`check.md`, or the uncaught exception that kills the process before it
writes anything. -/
def runReport (lines : List (Option JValue)) : Except PyError String := do
  let st ← runLoop { out := [], has_messages := false } lines
  if st.has_messages = false then
    .ok successDoc
  else
    .ok (reportHeader ++ joinLines st.out)

/-- The per-line results of the loop in input order: the block each
line appends (`[]` for skipped lines), or the first uncaught
exception.  This is the loop of `check.py` with the state accumulation
factored out; `runLoop_eq_mapBlocks` ties the two together. -/
def mapBlocks : List (Option JValue) → Except PyError (List (List String))
  | [] => .ok []
  | l :: ls => do
    let b ← processLine l
    let bs ← mapBlocks ls
    pure (b :: bs)

/-- Concatenation of the per-line blocks, in input order. -/
def flattenBlocks : List (List String) → List String
  | [] => []
  | b :: bs => b ++ flattenBlocks bs

/-- Whether some line produced a block: the final value of the
`has_messages` flag. -/
def anyNonempty : List (List String) → Bool
  | [] => false
  | b :: bs => !b.isEmpty || anyNonempty bs

/-- Whether the run completes without an uncaught exception (and hence
writes `check.md` at all). -/
def runOk (lines : List (Option JValue)) : Bool :=
  match runReport lines with
  | .ok _ => true
  | .error _ => false

/-- Whether the line at index `i` contributes a block to the report: a
report only exists when the run completes, and the block of line `i`
is then the `i`-th element of the per-line results. -/
def lineContributes (lines : List (Option JValue)) (i : Nat) : Bool :=
  match mapBlocks lines with
  | .ok bss => !(bss.getD i []).isEmpty
  | .error _ => false

/-- The `level` value of a decoded record, read the way the script
reads it: `obj.get("message", {}).get("level")`. -/
def levelValue (v : JValue) : Except PyError JValue := do
  let msg ← pyGet v "message" (JValue.obj [])
  pyGet msg "level" JValue.null

/-- Whether a JSON value is an object. -/
def isObjB : JValue → Bool
  | .obj _ => true
  | _ => false

/-- `v` has string field `key` equal to `s`. -/
def fieldEqStr (fs : List (String × JValue)) (key s : String) : Bool :=
  match jLookup fs key with
  | some (JValue.str t) => t == s
  | _ => false

/-- The filter condition exactly as the specification states it: the
line decodes as valid JSON, it is an object whose `reason` field
equals `"compiler-message"`, whose `message.level` field is `"error"`
or `"warning"`, and whose `message.spans` sequence is non-empty. -/
def specQualifies : Option JValue → Bool
  | some (JValue.obj fs) =>
    fieldEqStr fs "reason" "compiler-message" &&
    (match jLookup fs "message" with
     | some (JValue.obj ms) =>
       (fieldEqStr ms "level" "error" || fieldEqStr ms "level" "warning") &&
       (match jLookup ms "spans" with
        | some (JValue.arr (_ :: _)) => true
        | _ => false)
     | _ => false)
  | _ => false

/-! ### Basic monadic reductions -/

lemma okBind {α β : Type} (a : α) (f : α → Except PyError β) :
    (Except.ok a >>= f) = f a := rfl

lemma errBind {α β : Type} (e : PyError) (f : α → Except PyError β) :
    (Except.error e >>= f : Except PyError β) = Except.error e := rfl

lemma pureExcept {α : Type} (a : α) : (pure a : Except PyError α) = Except.ok a := rfl


/-! ### Bridging lemmas -/

lemma runLoop_eq_mapBlocks (lines : List (Option JValue)) (st : LoopState) :
    runLoop st lines = (mapBlocks lines).map
      (fun bss => ⟨st.out ++ flattenBlocks bss, st.has_messages || anyNonempty bss⟩) := by
  induction lines generalizing st with
  | nil =>
    simp [runLoop, mapBlocks, Except.map, flattenBlocks, anyNonempty]
  | cons l ls ih =>
    cases hl : processLine l with
    | error e =>
      simp [runLoop, stepLine, mapBlocks, hl, errBind, okBind, Except.map]
    | ok b =>
      cases hb : b.isEmpty with
      | true =>
        have hbnil : b = [] := by
          cases b with
          | nil => rfl
          | cons x xs => simp [List.isEmpty] at hb
        subst hbnil
        cases hm : mapBlocks ls with
        | error e =>
          simp [runLoop, stepLine, mapBlocks, hl, hm, okBind, errBind, Except.map, ih]
        | ok bs =>
          simp [runLoop, stepLine, mapBlocks, hl, hm, okBind, errBind, Except.map, ih,
            flattenBlocks, anyNonempty]
      | false =>
        have hbne : ¬ b = [] := by
          cases b with
          | nil => simp [List.isEmpty] at hb
          | cons x xs => simp
        cases hm : mapBlocks ls with
        | error e =>
          simp [runLoop, stepLine, mapBlocks, hl, hm, hb, hbne, okBind, errBind, Except.map, ih]
        | ok bs =>
          simp [runLoop, stepLine, mapBlocks, hl, hm, hb, hbne, okBind, errBind, Except.map, ih,
            flattenBlocks, anyNonempty, List.append_assoc]

lemma runReport_eq (lines : List (Option JValue)) (bss : List (List String))
    (h : mapBlocks lines = .ok bss) :
    runReport lines =
      .ok (if anyNonempty bss = false then successDoc
           else reportHeader ++ joinLines (flattenBlocks bss)) := by
  unfold runReport
  rw [runLoop_eq_mapBlocks, h]
  simp only [Except.map, okBind, Bool.false_or, List.nil_append]
  split <;> simp_all

lemma runReport_error (lines : List (Option JValue)) (e : PyError)
    (h : mapBlocks lines = .error e) :
    runReport lines = .error e := by
  unfold runReport
  rw [runLoop_eq_mapBlocks, h]
  rfl

lemma runOk_iff (lines : List (Option JValue)) :
    runOk lines = true ↔ ∃ bss, mapBlocks lines = .ok bss := by
  constructor
  · intro h
    cases hm : mapBlocks lines with
    | ok bss => exact ⟨bss, rfl⟩
    | error e =>
      rw [runOk, runReport_error lines e hm] at h
      cases h
  · rintro ⟨bss, hm⟩
    rw [runOk, runReport_eq lines bss hm]

lemma mapBlocks_getD (lines : List (Option JValue)) (bss : List (List String))
    (h : mapBlocks lines = .ok bss) (i : Nat) :
    processLine (lines.getD i none) = .ok (bss.getD i []) := by
  induction lines generalizing bss i with
  | nil =>
    simp [mapBlocks, pureExcept] at h
    subst h
    simp [processLine]
  | cons l ls ih =>
    cases hl : processLine l with
    | error e => simp [mapBlocks, hl, errBind] at h
    | ok b =>
      cases hm : mapBlocks ls with
      | error e => simp [mapBlocks, hl, hm, okBind, errBind] at h
      | ok bs =>
        simp [mapBlocks, hl, hm, okBind, pureExcept] at h
        subst h
        cases i with
        | zero => simpa using hl
        | succ j => simpa using ih bs hm j

lemma mapBlocks_append (xs ys : List (Option JValue)) :
    mapBlocks (xs ++ ys) = (do
      let bs ← mapBlocks xs
      let cs ← mapBlocks ys
      pure (bs ++ cs) : Except PyError (List (List String))) := by
  induction xs with
  | nil =>
    cases hm : mapBlocks ys with
    | error e => simp [mapBlocks, hm, okBind, errBind, pureExcept]
    | ok cs => simp [mapBlocks, hm, okBind, pureExcept]
  | cons x xs ih =>
    cases hx : processLine x with
    | error e => simp [mapBlocks, hx, errBind]
    | ok b =>
      cases hxs : mapBlocks xs with
      | error e => simp [mapBlocks, hx, hxs, okBind, errBind, ih]
      | ok bs =>
        cases hys : mapBlocks ys with
        | error e => simp [mapBlocks, hx, hxs, hys, okBind, errBind, ih]
        | ok cs => simp [mapBlocks, hx, hxs, hys, okBind, errBind, pureExcept, ih]

lemma mapBlocks_mem (lines : List (Option JValue)) (bss : List (List String))
    (h : mapBlocks lines = .ok bss) (b : List String) (hb : b ∈ bss) :
    ∃ l, l ∈ lines ∧ processLine l = .ok b := by
  induction lines generalizing bss with
  | nil =>
    simp [mapBlocks, pureExcept] at h
    subst h
    cases hb
  | cons l ls ih =>
    cases hl : processLine l with
    | error e => simp [mapBlocks, hl, errBind] at h
    | ok c =>
      cases hm : mapBlocks ls with
      | error e => simp [mapBlocks, hl, hm, okBind, errBind] at h
      | ok cs =>
        simp [mapBlocks, hl, hm, okBind, pureExcept] at h
        subst h
        rcases List.mem_cons.mp hb with rfl | htail
        · exact ⟨l, List.mem_cons_self _ _, hl⟩
        · rcases ih cs hm htail with ⟨l2, hl2, hp⟩
          exact ⟨l2, List.mem_cons_of_mem _ hl2, hp⟩

lemma isStrEq_true_iff (v : JValue) (s : String) : isStrEq v s = true ↔ v = JValue.str s := by
  cases v <;> simp [isStrEq]

lemma fieldEqStr_eq (fs : List (String × JValue)) (k s : String) :
    fieldEqStr fs k s = isStrEq ((jLookup fs k).getD JValue.null) s := by
  cases h : jLookup fs k with
  | none => simp [fieldEqStr, h, isStrEq]
  | some v => cases v <;> simp [fieldEqStr, h, isStrEq]

lemma processLine_ok_shape (v : JValue) (b : List String)
    (h : processLine (some v) = .ok b) :
    (b = [] ∧ specQualifies (some v) = false) ∨
    (specQualifies (some v) = true ∧
      ∃ s m fl r, (s = "error" ∨ s = "warning") ∧
        levelValue v = .ok (JValue.str s) ∧
        b = ["### " ++ pyTitle s ++ ": " ++ m, fl, "```rust", r, "```\n"]) := by
  cases v with
  | null => simp [processLine, pyGet, errBind] at h
  | bool bb => simp [processLine, pyGet, errBind] at h
  | num n => simp [processLine, pyGet, errBind] at h
  | str s => simp [processLine, pyGet, errBind] at h
  | arr xs => simp [processLine, pyGet, errBind] at h
  | obj fs =>
    simp only [processLine, pyGet, okBind] at h
    cases hR : isStrEq ((jLookup fs "reason").getD JValue.null) "compiler-message" with
    | false =>
      rw [hR] at h
      simp [pureExcept] at h
      left
      refine ⟨h, ?_⟩
      simp [specQualifies, fieldEqStr_eq, hR]
    | true =>
      rw [hR] at h
      simp only [Bool.true_eq_false, if_false, reduceIte] at h
      cases hM : jLookup fs "message" with
      | none =>
        rw [hM] at h
        simp [jLookup, isStrEq, pyFalsy, pureExcept, okBind] at h
        left
        refine ⟨h, ?_⟩
        simp [specQualifies, hM]
      | some mv =>
        rw [hM] at h
        cases mv with
        | null => simp [okBind, errBind, pureExcept] at h
        | bool b2 => simp [okBind, errBind, pureExcept] at h
        | num n => simp [okBind, errBind, pureExcept] at h
        | str s2 => simp [okBind, errBind, pureExcept] at h
        | arr xs => simp [okBind, errBind, pureExcept] at h
        | obj ms =>
          simp only [Option.getD_some, okBind, pureExcept] at h
          cases hL : isStrEq ((jLookup ms "level").getD JValue.null) "error" ||
              isStrEq ((jLookup ms "level").getD JValue.null) "warning" with
          | false =>
            rw [hL] at h
            simp [pureExcept] at h
            left
            refine ⟨h, ?_⟩
            simp [specQualifies, hM, fieldEqStr_eq, hL]
          | true =>
            have hlev : ∃ s, (jLookup ms "level").getD JValue.null = JValue.str s ∧
                (s = "error" ∨ s = "warning") := by
              have hL2 : isStrEq ((jLookup ms "level").getD JValue.null) "error" = true ∨
                  isStrEq ((jLookup ms "level").getD JValue.null) "warning" = true := by
                simpa using hL
              rcases hL2 with h1 | h1
              · exact ⟨"error", (isStrEq_true_iff _ _).mp h1, Or.inl rfl⟩
              · exact ⟨"warning", (isStrEq_true_iff _ _).mp h1, Or.inr rfl⟩
            rcases hlev with ⟨s, hlev, hsor⟩
            rw [hL] at h
            simp only [Bool.true_eq_false, if_false, reduceIte, hlev] at h
            cases hS : jLookup ms "spans" with
            | none =>
              rw [hS] at h
              simp [pyFalsy, pureExcept] at h
              left
              refine ⟨h, ?_⟩
              simp [specQualifies, hM, hS]
            | some sv =>
              rw [hS] at h
              cases sv with
              | null =>
                simp [pyFalsy, pureExcept] at h
                left
                refine ⟨h, ?_⟩
                simp [specQualifies, hM, hS]
              | bool b2 =>
                cases b2 with
                | false =>
                  simp [pyFalsy, pureExcept] at h
                  left
                  refine ⟨h, ?_⟩
                  simp [specQualifies, hM, hS]
                | true =>
                  simp [pyFalsy, pySubscript0, okBind, errBind, pureExcept] at h
              | num n =>
                cases hz : (n == 0) with
                | true =>
                  simp [pyFalsy, hz, pureExcept] at h
                  left
                  refine ⟨h, ?_⟩
                  simp [specQualifies, hM, hS]
                | false =>
                  simp [pyFalsy, hz, pySubscript0, okBind, errBind, pureExcept] at h
              | str s2 =>
                cases hd : s2.data with
                | nil =>
                  simp [pyFalsy, hd, pureExcept] at h
                  left
                  refine ⟨h, ?_⟩
                  simp [specQualifies, hM, hS]
                | cons c cs =>
                  simp [pyFalsy, hd, pySubscript0, pyTitleV, okBind, errBind, pureExcept] at h
              | obj ps =>
                cases ps with
                | nil =>
                  simp [pyFalsy, pureExcept] at h
                  left
                  refine ⟨h, ?_⟩
                  simp [specQualifies, hM, hS]
                | cons p ps2 =>
                  simp [pyFalsy, pySubscript0, okBind, errBind, pureExcept] at h
              | arr sps =>
                cases sps with
                | nil =>
                  simp [pyFalsy, pureExcept] at h
                  left
                  refine ⟨h, ?_⟩
                  simp [specQualifies, hM, hS]
                | cons sp rest =>
                  simp only [pyFalsy, List.isEmpty_cons, Bool.false_eq_true, if_false,
                    reduceIte, pySubscript0, pyTitleV, okBind, pureExcept] at h
                  cases sp with
                  | null => simp [okBind, errBind, pureExcept] at h
                  | bool b3 => simp [okBind, errBind, pureExcept] at h
                  | num n3 => simp [okBind, errBind, pureExcept] at h
                  | str s3 => simp [okBind, errBind, pureExcept] at h
                  | arr a3 => simp [okBind, errBind, pureExcept] at h
                  | obj spfs =>
                    simp only [Option.getD_some, okBind, pureExcept] at h
                    cases hrv : (jLookup ms "rendered").getD (JValue.str "") with
                    | str rs =>
                      rw [hrv] at h
                      simp only [pyRstrip, okBind, pureExcept] at h
                      right
                      have hb : b = ["### " ++ pyTitle s ++ ": " ++
                          pyStr ((jLookup ms "message").getD (JValue.str "")),
                          "File: " ++ pyStr ((jLookup spfs "file_name").getD JValue.null) ++ ":" ++
                            pyStr ((jLookup spfs "line_start").getD JValue.null),
                          "```rust", pyRstripStr rs, "```\n"] := by
                        cases h
                        rfl
                      refine ⟨?_, s, _, _, _, hsor, ?_, hb⟩
                      · simp [specQualifies, hM, hS, fieldEqStr_eq, hR, hL]
                      · simp [levelValue, pyGet, hM, hlev, okBind]
                    | null => rw [hrv] at h; simp [pyRstrip, okBind, errBind, pureExcept] at h
                    | bool b4 => rw [hrv] at h; simp [pyRstrip, okBind, errBind, pureExcept] at h
                    | num n4 => rw [hrv] at h; simp [pyRstrip, okBind, errBind, pureExcept] at h
                    | arr a4 => rw [hrv] at h; simp [pyRstrip, okBind, errBind, pureExcept] at h
                    | obj o4 => rw [hrv] at h; simp [pyRstrip, okBind, errBind, pureExcept] at h


/-! ### Further helper lemmas -/

lemma processLine_nonObj (v : JValue) (hv : isObjB v = false) :
    processLine (some v) = .error PyError.attributeError := by
  cases v with
  | obj fs => simp [isObjB] at hv
  | null => rfl
  | bool b => rfl
  | num n => rfl
  | str s => rfl
  | arr xs => rfl

lemma mapBlocks_all_nil : ∀ (lines : List (Option JValue)),
    (∀ l ∈ lines, processLine l = .ok []) →
    mapBlocks lines = .ok (lines.map fun _ => ([] : List String))
  | [], _ => rfl
  | l :: ls, h => by
    have h1 := h l (List.mem_cons_self _ _)
    have h2 := fun l2 hl2 => h l2 (List.mem_cons_of_mem _ hl2)
    simp [mapBlocks, h1, okBind, mapBlocks_all_nil ls h2, pureExcept]

lemma anyNonempty_map_nil (lines : List (Option JValue)) :
    anyNonempty (lines.map fun _ => ([] : List String)) = false := by
  induction lines with
  | nil => rfl
  | cons l ls ih => simpa [anyNonempty, List.isEmpty] using ih

lemma anyNonempty_false_flatten (bss : List (List String)) (h : anyNonempty bss = false) :
    flattenBlocks bss = [] := by
  induction bss with
  | nil => rfl
  | cons b bs ih =>
    cases b with
    | nil =>
      simp [anyNonempty, List.isEmpty] at h
      simp [flattenBlocks, ih h]
    | cons x xs => simp [anyNonempty, List.isEmpty] at h

lemma flattenBlocks_ends : ∀ (bss : List (List String)),
    anyNonempty bss = true →
    (∀ b ∈ bss, b ≠ [] → ∃ pre, b = pre ++ ["```\n"]) →
    ∃ xs, flattenBlocks bss = xs ++ ["```\n"]
  | [], hne, _ => by cases hne
  | b :: bs, hne, hshape => by
    cases ha : anyNonempty bs with
    | true =>
      rcases flattenBlocks_ends bs ha
          (fun b2 hb2 hne2 => hshape b2 (List.mem_cons_of_mem _ hb2) hne2) with ⟨xs, hxs⟩
      exact ⟨b ++ xs, by simp [flattenBlocks, hxs]⟩
    | false =>
      have hflat : flattenBlocks bs = [] := anyNonempty_false_flatten bs ha
      have hbne : b ≠ [] := by
        intro hb
        rw [hb] at hne
        simp [anyNonempty, List.isEmpty, ha] at hne
      rcases hshape b (List.mem_cons_self _ _) hbne with ⟨pre, hpre⟩
      exact ⟨pre, by simp [flattenBlocks, hflat, hpre]⟩

lemma joinLines_concat (xs : List String) (t : String) :
    ∃ s0, joinLines (xs ++ [t]) = s0 ++ t := by
  induction xs with
  | nil => exact ⟨"", by simp [joinLines]⟩
  | cons x xs ih =>
    cases xs with
    | nil => exact ⟨x ++ "\n", by simp [joinLines]⟩
    | cons y ys =>
      rcases ih with ⟨s0, hs0⟩
      refine ⟨x ++ "\n" ++ s0, ?_⟩
      have h1 : joinLines (x :: (y :: ys) ++ [t]) = x ++ "\n" ++ joinLines ((y :: ys) ++ [t]) := rfl
      rw [h1, hs0]
      simp [String.append_assoc]

lemma runLoop_filter (lines : List (Option JValue)) (st : LoopState) :
    runLoop st lines = runLoop st (lines.filter fun l => l.isSome) := by
  induction lines generalizing st with
  | nil => rfl
  | cons l ls ih =>
    cases l with
    | none =>
      have hstep : stepLine st none = .ok st := rfl
      simp [runLoop, List.filter, hstep, okBind, Option.isSome, ih]
    | some v =>
      cases hs : stepLine st (some v) with
      | error e => simp [runLoop, List.filter, hs, errBind, Option.isSome]
      | ok st2 => simp [runLoop, List.filter, hs, okBind, Option.isSome, ih]

/-! ### The file-system view of one invocation -/

/-- The two files the script touches. -/
structure FileSystem : Type where
  checkJson : List (Option JValue)
  checkMd : Option String

/-- One invocation of the script against the file system: it reads
`check.json`, and either writes the computed document to `check.md`
(overwriting whatever was there) or dies on an uncaught exception
before writing anything. -/
def runOnFs (fs : FileSystem) : Except PyError FileSystem :=
  (runReport fs.checkJson).map fun doc => { fs with checkMd := some doc }

/-! ### Concrete records used as witnesses and counterexamples -/

/-- A fully qualifying error-level diagnostic record. -/
def goodRec : JValue := .obj [("reason", .str "compiler-message"),
  ("message", .obj [("level", .str "error"), ("message", .str "x"),
    ("spans", .arr [.obj [("file_name", .str "a.rs"), ("line_start", .num 1)]]),
    ("rendered", .str "r")])]

/-- The block `goodRec` renders to. -/
def goodBlock : List String :=
  ["### Error: x", "File: a.rs:1", "```rust", "r", "```\n"]

/-- A fully qualifying warning-level diagnostic record. -/
def warnRec : JValue := .obj [("reason", .str "compiler-message"),
  ("message", .obj [("level", .str "warning"), ("message", .str "unused variable"),
    ("spans", .arr [.obj [("file_name", .str "b.rs"), ("line_start", .num 2)]]),
    ("rendered", .str "w")])]

/-- The block `warnRec` renders to. -/
def warnBlock : List String :=
  ["### Warning: unused variable", "File: b.rs:2", "```rust", "w", "```\n"]

/-- A record whose `reason` is not `compiler-message`: skipped. -/
def skipRec : JValue := .obj [("reason", .str "build-finished")]

/-- A compiler-message record whose `message` field is a number. -/
def badMsgRec : JValue := .obj [("reason", .str "compiler-message"), ("message", .num 5)]

/-- A compiler-message record whose `message` field is a string. -/
def badMsgStrRec : JValue := .obj [("reason", .str "compiler-message"), ("message", .str "oops")]

/-- The single record of the specifications worked example. -/
def rec4 : JValue := .obj [
  ("reason", .str "compiler-message"),
  ("message", .obj [
    ("level", .str "error"),
    ("message", .str "mismatched types"),
    ("spans", .arr [.obj [("file_name", .str "src/main.rs"), ("line_start", .num 10)]]),
    ("rendered", .str "error: mismatched types\n --> src/main.rs:10")])]


lemma lineContributes_eq (lines : List (Option JValue)) (bss : List (List String))
    (hm : mapBlocks lines = .ok bss) (i : Nat) :
    lineContributes lines i = !(bss.getD i []).isEmpty := by
  simp only [lineContributes, hm]

/-! ### Claims -/

/-- Claim C1, counterexample to the claim as stated: in the input
`[goodRec, badMsgRec]` the first line satisfies all four stated filter
conditions, yet it contributes no block, because the second line makes
the script raise an uncaught `AttributeError` before any report is
written.  A condition other than the four listed ones (no later line
raising) therefore also decides inclusion. -/
theorem C1_filter_iff_counterexample :
    specQualifies (some goodRec) = true ∧
    lineContributes [some goodRec, some badMsgRec] 0 = false ∧
    runReport [some goodRec, some badMsgRec] = .error PyError.attributeError := by
  decide

/-- Claim C1, amended: provided the run completes without an uncaught
exception, a line contributes a block to the report if and only if it
decodes as valid JSON, its `reason` field equals `"compiler-message"`,
its `message.level` field is `"error"` or `"warning"`, and its
`message.spans` sequence is non-empty; no other condition decides
inclusion. -/
theorem C1_filter_iff (lines : List (Option JValue)) (h : runOk lines = true) (i : Nat) :
    lineContributes lines i = specQualifies (lines.getD i none) := by
  rcases (runOk_iff lines).mp h with ⟨bss, hm⟩
  have hp := mapBlocks_getD lines bss hm i
  rw [lineContributes_eq lines bss hm i]
  cases hline : lines.getD i none with
  | none =>
    rw [hline] at hp
    have h2 : (Except.ok [] : Except PyError (List String)) = Except.ok (bss.getD i []) := by
      rw [← hp]
      rfl
    rw [(Except.ok.inj h2).symm]
    rfl
  | some v =>
    rw [hline] at hp
    rcases processLine_ok_shape v _ hp with ⟨hb, hq⟩ | ⟨hq, s, m, fl, r, hsor, hlv, hb⟩
    · rw [hb, hq]
      rfl
    · rw [hb, hq]
      rfl

/-- Claim C1, witness for the amended theorem at a concrete input. -/
theorem C1_filter_iff_witness :
    lineContributes [some goodRec] 0 = specQualifies ([some goodRec].getD 0 none) :=
  C1_filter_iff [some goodRec] (by decide) 0

/-- Claim C2, counterexample: a line that decodes as valid JSON but is
not an object (here the array `[1]`) is not silently skipped — the
script raises an uncaught `AttributeError` (from `.get` on a list) and
writes nothing, whereas with the line absent it writes the success
document. -/
theorem C2_nonobject_counterexample :
    runReport [some (JValue.arr [JValue.num 1])] = .error PyError.attributeError ∧
    runReport ([] : List (Option JValue)) = .ok successDoc := by
  decide

/-- Claim C2, amended: a line that decodes to a non-object JSON value
makes the run raise an uncaught `AttributeError` (terminating the
program with no output written), rather than being skipped — here
stated for any such line after an error-free prefix. -/
theorem C2_nonobject_raises (v : JValue) (hv : isObjB v = false)
    (pre rest : List (Option JValue)) (hpre : ∃ bs, mapBlocks pre = .ok bs) :
    runReport (pre ++ some v :: rest) = .error PyError.attributeError := by
  rcases hpre with ⟨bs, hbs⟩
  have hv2 : processLine (some v) = .error PyError.attributeError := processLine_nonObj v hv
  have hmap : mapBlocks (pre ++ some v :: rest) = .error PyError.attributeError := by
    rw [mapBlocks_append, hbs]
    simp [okBind, mapBlocks, hv2, errBind]
  exact runReport_error _ _ hmap

/-- Claim C2, witness for the amended theorem at a concrete input. -/
theorem C2_nonobject_raises_witness :
    runReport ([none] ++ some (JValue.str "plain text") :: [some goodRec]) =
      .error PyError.attributeError :=
  C2_nonobject_raises (JValue.str "plain text") (by decide) [none] [some goodRec]
    ⟨[[]], by decide⟩

/-- Claim C3, counterexample: `badMsgStrRec` is a decoded record that
does not pass the filter (its `message.level` is not error or
warning), so the claim promises the fixed success document; the script
instead raises an uncaught `AttributeError` (`.get` on the string
`message`) and writes nothing. -/
theorem C3_success_counterexample :
    specQualifies (some badMsgStrRec) = false ∧
    runReport [some badMsgStrRec] = .error PyError.attributeError ∧
    runReport [some badMsgStrRec] ≠ .ok successDoc := by
  decide

/-- Claim C3, amended: for every input with zero lines, or in which
every line either fails to decode as JSON or is skipped by the filter
without raising an exception, the output is exactly the fixed success
document. -/
theorem C3_success_doc (lines : List (Option JValue))
    (h : ∀ l ∈ lines, processLine l = .ok []) :
    runReport lines = .ok successDoc := by
  have hm := mapBlocks_all_nil lines h
  rw [runReport_eq lines _ hm, anyNonempty_map_nil]
  simp

/-- Claim C3, witness for the amended theorem at a concrete input. -/
theorem C3_success_doc_witness :
    runReport [none, some skipRec] = .ok successDoc :=
  C3_success_doc [none, some skipRec] (by decide)

/-- Claim C4: on the input consisting of the one record of the
specifications worked example, the output is exactly the heading, a
blank line, the block `### Error: mismatched types`, the location line
`File: src/main.rs:10`, and a fenced `rust` code block containing the
rendered text with no trailing blank lines inside the fence. -/
theorem C4_worked_example :
    runReport [some rec4] =
      .ok ("# Cargo Check Report\n\n### Error: mismatched types\nFile: src/main.rs:10\n```rust\nerror: mismatched types\n --> src/main.rs:10\n```\n") := by
  decide

/-- Claim C5: when the run completes having produced per-line blocks
`bss`, the report is the header followed by the blocks joined in input
order — the `i`-th element of `bss` is exactly the block of the `i`-th
input line, with no resorting and no deduplication. -/
theorem C5_order_preserved (lines : List (Option JValue)) (bss : List (List String))
    (h : mapBlocks lines = .ok bss) (hne : anyNonempty bss = true) :
    runReport lines = .ok (reportHeader ++ joinLines (flattenBlocks bss)) ∧
    ∀ i, processLine (lines.getD i none) = .ok (bss.getD i []) := by
  refine ⟨?_, mapBlocks_getD lines bss h⟩
  rw [runReport_eq lines bss h, hne]
  simp

/-- Claim C5, witness: a warning record before an error record keeps
that input order in the report. -/
theorem C5_order_preserved_witness :
    runReport [some warnRec, some goodRec] =
      .ok (reportHeader ++ joinLines (flattenBlocks [warnBlock, goodBlock])) :=
  (C5_order_preserved [some warnRec, some goodRec] [warnBlock, goodBlock]
    (by decide) (by decide)).1

/-- Claim C6: in the report shape, every qualifying block ends with
the closing fence followed by the newline terminator (so that joining
by newlines leaves an empty line after each closing fence), the
document is the heading, a blank line, and the blocks joined by
newlines in order, and the document itself ends with the terminated
closing fence of the last block. -/
theorem C6_blank_line_terminators (lines : List (Option JValue)) (bss : List (List String))
    (h : mapBlocks lines = .ok bss) (hne : anyNonempty bss = true) :
    (∀ b ∈ bss, b ≠ [] → ∃ l1 l2 r, b = [l1, l2, "```rust", r, "```\n"]) ∧
    runReport lines = .ok (reportHeader ++ joinLines (flattenBlocks bss)) ∧
    (∃ s, runReport lines = .ok (s ++ "```\n")) := by
  have hshape : ∀ b ∈ bss, b ≠ [] → ∃ l1 l2 r, b = [l1, l2, "```rust", r, "```\n"] := by
    intro b hb hbne
    rcases mapBlocks_mem lines bss h b hb with ⟨l, _, hp⟩
    cases l with
    | none =>
      have h2 : (Except.ok [] : Except PyError (List String)) = Except.ok b := by
        rw [← hp]
        rfl
      exact absurd (Except.ok.inj h2).symm hbne
    | some v =>
      rcases processLine_ok_shape v b hp with ⟨hnil, _⟩ | ⟨_, s, m, fl, r, _, _, hb5⟩
      · exact absurd hnil hbne
      · exact ⟨_, fl, r, hb5⟩
  have hrun : runReport lines = .ok (reportHeader ++ joinLines (flattenBlocks bss)) := by
    rw [runReport_eq lines bss h, hne]
    simp
  refine ⟨hshape, hrun, ?_⟩
  rcases flattenBlocks_ends bss hne
      (fun b hb hbne => by
        rcases hshape b hb hbne with ⟨l1, l2, r, h5⟩
        exact ⟨[l1, l2, "```rust", r], by rw [h5]; rfl⟩) with ⟨xs, hxs⟩
  rcases joinLines_concat xs "```\n" with ⟨s0, hs0⟩
  refine ⟨reportHeader ++ s0, ?_⟩
  rw [hrun, hxs, hs0, String.append_assoc]

/-- Claim C6, witness at a concrete two-record input. -/
theorem C6_blank_line_terminators_witness :
    ∃ s, runReport [some warnRec, some goodRec] = .ok (s ++ "```\n") :=
  (C6_blank_line_terminators [some warnRec, some goodRec] [warnBlock, goodBlock]
    (by decide) (by decide)).2.2

/-- Claim C7: lines that fail to decode as JSON (`none` in the model —
arbitrary non-JSON text) never change the output: the run on any input
equals the run on the same input with all undecodable lines removed,
so inserting such lines at any positions leaves the document
unchanged. -/
theorem C7_malformed_tolerance (lines : List (Option JValue)) :
    runReport lines = runReport (lines.filter fun l => l.isSome) := by
  unfold runReport
  rw [runLoop_filter]

/-- Claim C8: the output is a deterministic function of the decoded
input file alone (`runOnFs` is a pure function of the file system),
and a second run on the file system left by a completed first run
reproduces it byte for byte: the input file is untouched and the
output file is overwritten with the same document. -/
theorem C8_idempotent (fs fs2 : FileSystem) (h : runOnFs fs = .ok fs2) :
    runOnFs fs2 = .ok fs2 := by
  cases hr : runReport fs.checkJson with
  | error e =>
    rw [runOnFs, hr] at h
    cases h
  | ok doc =>
    rw [runOnFs, hr] at h
    simp [Except.map] at h
    rw [← h]
    simp [runOnFs, hr, Except.map]

/-- Claim C8, witness at a concrete file system. -/
theorem C8_idempotent_witness :
    runOnFs { checkJson := [], checkMd := some successDoc } =
      .ok { checkJson := [], checkMd := some successDoc } :=
  C8_idempotent { checkJson := [], checkMd := none }
    { checkJson := [], checkMd := some successDoc } (by rfl)

/-- Claim C9: every block of a qualifying record carries the level in
its heading with the first letter capitalized and the rest lowercase:
level `"error"` renders as `### Error: `, level `"warning"` as
`### Warning: `. -/
theorem C9_capitalized_level (v : JValue) (b : List String)
    (h : processLine (some v) = .ok b) (hb : b ≠ []) :
    ∃ s m fl r, levelValue v = .ok (JValue.str s) ∧
      ((s = "error" ∧ b = ["### Error: " ++ m, fl, "```rust", r, "```\n"]) ∨
       (s = "warning" ∧ b = ["### Warning: " ++ m, fl, "```rust", r, "```\n"])) := by
  rcases processLine_ok_shape v b h with ⟨hnil, _⟩ | ⟨_, s, m, fl, r, hsor, hlv, hshape⟩
  · exact absurd hnil hb
  · refine ⟨s, m, fl, r, hlv, ?_⟩
    rcases hsor with rfl | rfl
    · refine Or.inl ⟨rfl, ?_⟩
      rw [hshape]
      have hT : "### " ++ pyTitle "error" ++ ": " = "### Error: " := by decide
      rw [hT]
    · refine Or.inr ⟨rfl, ?_⟩
      rw [hshape]
      have hT : "### " ++ pyTitle "warning" ++ ": " = "### Warning: " := by decide
      rw [hT]

/-- Claim C9, witness: the warning record renders with `Warning` in
its heading. -/
theorem C9_capitalized_level_witness :
    ∃ s m fl r, levelValue warnRec = .ok (JValue.str s) ∧
      ((s = "error" ∧ warnBlock = ["### Error: " ++ m, fl, "```rust", r, "```\n"]) ∨
       (s = "warning" ∧ warnBlock = ["### Warning: " ++ m, fl, "```rust", r, "```\n"])) :=
  C9_capitalized_level warnRec warnBlock (by decide) (by decide)

/-- Claim C10: a line that is a valid JSON object with
`reason = "compiler-message"` but a non-object `message` field makes
the script raise an uncaught `AttributeError` (from `.get` on the
number), rather than skipping the line or writing any document. -/
theorem C10_nonobject_message_raises :
    runReport [some (JValue.obj [("reason", JValue.str "compiler-message"),
        ("message", JValue.num 1)])] = .error PyError.attributeError := by
  decide

end CargoCheck
